import Mathlib

/-!
Verification of the status-reconciliation core of the cluster-version
operator: the update-status controller (insight collection and ConfigMap
reconciliation) and the cluster-operator readiness waiter with its
precondition error summarization.

Go maps over string keys are modelled as association lists with
replace-on-insert semantics (`mapInsert` removes any previous binding of
the key); lookup is `mapGet`.  Strings are Lean `String`s; prefix and
order tests are performed on the underlying character lists so that all
definitions evaluate by kernel reduction.
-/

/-- Lookup in the association-list model of a Go map. -/
def mapGet {β : Type} : List (String × β) → String → Option β
  | [], _ => none
  | kv :: t, q => if kv.1 == q then some kv.2 else mapGet t q

/-- Go map assignment `m[k] = v`: any previous binding of `k` is replaced. -/
def mapInsert {β : Type} (m : List (String × β)) (k : String) (v : β) : List (String × β) :=
  (k, v) :: m.filter (fun kv => !(kv.1 == k))

/-- Go `delete(m, k)`. -/
def mapErase {β : Type} (m : List (String × β)) (k : String) : List (String × β) :=
  m.filter (fun kv => !(kv.1 == k))

/-- Key list of the association-list model of a Go map. -/
def mapKeys {β : Type} (m : List (String × β)) : List String :=
  m.map Prod.fst

/-! ## update status controller (package updatestatus) -/

/-- `isStatusInsightKey`: `strings.HasPrefix(k, "usc-")`, stated on the
character list so that it evaluates by kernel reduction. -/
def isStatusInsightKey (k : String) : Bool :=
  ("usc-").data.isPrefixOf k.data

/-- `ConfigMap.Data`: a Go `map[string]string`. -/
abbrev CMData := List (String × String)

/-- `informerMsg`: uid of the insight plus the serialized insight. -/
structure InformerMsg where
  uid : String
  insight : String
deriving DecidableEq

/-- The `statusApi` internal state of `updateStatusController`: the desired
ConfigMap (`nil` until the first insight or bootstrap) and the processed
counter. -/
structure ControllerState where
  cm : Option CMData
  processed : Nat
deriving DecidableEq

/-- `updateStatusController.updateInsightInStatusApi`: initialize the
internal ConfigMap when nil, store the insight under its uid, and bump the
processed counter. -/
def updateInsightInStatusApi (s : ControllerState) (msg : InformerMsg) : ControllerState :=
  let cm := match s.cm with
    | none => []
    | some d => d
  { cm := some (mapInsert cm msg.uid msg.insight), processed := s.processed + 1 }

/-- Result of `c.configMaps.Get` on the status-api ConfigMap. -/
inductive GetResult
  | found (cluster : CMData)
  | notFound
  | failed (e : String)
deriving DecidableEq

/-- Result returned by the sync/commit path. -/
inductive SyncResult
  | ok
  | failure (e : String)
deriving DecidableEq

/-- Observable outcome of one `commitStatusApiAsConfigMap` call: the
resulting internal state, the payload of the `Update` call when one is
issued, and the returned error. -/
structure CommitOutcome where
  state : ControllerState
  write : Option CMData
  result : SyncResult
deriving DecidableEq

/-- The merge performed by `commitStatusApiAsConfigMap` when internal state
exists: delete every `usc-`-prefixed key from the fetched data, then copy
every internal entry over it. -/
def mergeForCommit (internal cluster : CMData) : CMData :=
  internal.foldl (fun acc kv => mapInsert acc kv.1 kv.2)
    (cluster.filter (fun kv => !isStatusInsightKey kv.1))

/-- `updateStatusController.commitStatusApiAsConfigMap`: not-found fetch is
a successful no-op; other fetch failures propagate; with no internal state
the fetched data is adopted without writing; otherwise the merged ConfigMap
is stored and written. -/
def commitStatusApiAsConfigMap (s : ControllerState) (fetch : GetResult) : CommitOutcome :=
  match fetch with
  | .notFound => ⟨s, none, .ok⟩
  | .failed e => ⟨s, none, .failure e⟩
  | .found cluster =>
    match s.cm with
    | none => ⟨⟨some cluster, s.processed⟩, none, .ok⟩
    | some internal =>
      let merged := mergeForCommit internal cluster
      ⟨⟨some merged, s.processed⟩, some merged, .ok⟩

/-! ## payload.UpdateError and precondition.Summarize -/

/-- `payload.UpdateError`: nested cause (rendered as text), reason code,
message and subject name. -/
structure UpdateError where
  nested : Option String
  reason : String
  message : String
  name : String
deriving DecidableEq

/-- An element of the error list passed to `Summarize`: either a
`*precondition.Error` (with nested cause, reason, message, name) or any
other error rendered by its `Error()` text. -/
inductive GoError
  | structured (nested : Option String) (reason : String) (message : String) (name : String)
  | plain (message : String)
deriving DecidableEq

/-- Go `%q` on a plain string: surround with double quotes (escaping of
special characters is not modelled; all inputs used here are plain). -/
def quoteGo (s : String) : String :=
  ("\"") ++ s ++ ("\"")

/-- One line of `Summarize`'s message list: `precondition.Error` values are
rendered with their name and reason, other errors by their `Error()` text
(which for `precondition.Error` would be its message). -/
def summarizeRender : GoError → String
  | .structured _ reason m name =>
      ("Precondition ") ++ quoteGo name ++ (" failed because of ") ++ quoteGo reason ++ (": ") ++ m
  | .plain m => m

/-- `precondition.Summarize`: nil on an empty list; otherwise an
`UpdateError` with fixed reason and name, whose message is the single
rendering or a bullet list. -/
def summarize (errs : List GoError) : Option UpdateError :=
  match errs with
  | [] => none
  | _ :: _ =>
    let msgs := errs.map summarizeRender
    let msg := match msgs with
      | [m] => m
      | _ => ("Multiple precondition checks failed:\n* ") ++ String.intercalate ("\n* ") msgs
    some { nested := none, reason := ("UpgradePreconditionCheckFailed"), message := msg,
           name := ("PreconditionCheck") }

/-! ## waitForOperatorStatusToBeDone (package internal) -/

/-- `configv1.OperandVersion`. -/
structure OperandVersion where
  name : String
  version : String
deriving DecidableEq

/-- `configv1.ClusterOperatorStatusCondition`: type, status string
("True" / "False" / "Unknown") and message. -/
structure COCondition where
  ctype : String
  status : String
  message : String
deriving DecidableEq

/-- `configv1.ClusterOperatorStatus`: operand versions and conditions. -/
structure COStatus where
  versions : List OperandVersion
  conditions : List COCondition
deriving DecidableEq

/-- `configv1.ClusterOperator`: name and status. -/
structure ClusterOperator where
  name : String
  status : COStatus
deriving DecidableEq

/-- `resourcebuilder.Mode` as seen by the waiter's switch: the
`InitializingMode` case versus the default branch taken by every other
mode. -/
inductive Mode
  | initializingMode
  | defaultMode
deriving DecidableEq

/-- The inner loop over `actual.Status.Versions` with `break`: the version
of the first operand with the given name, if any. -/
def findVersion : List OperandVersion → String → Option String
  | [], _ => none
  | v :: rest, n => if v.name == n then some v.version else findVersion rest n

/-- One iteration of the loop building the `undone` map for one expected
operand: insert `[expectedVersion]`, append the actual version when the
operand is found, and delete the entry when the versions agree. -/
def undoneStep (actual : List OperandVersion) (m : List (String × List String))
    (e : OperandVersion) : List (String × List String) :=
  let m1 := mapInsert m e.name [e.version]
  match findVersion actual e.name with
  | none => m1
  | some v =>
    let m2 := mapInsert m1 e.name [e.version, v]
    if v == e.version then mapErase m2 e.name else m2

/-- The `undone` map of a poll tick: fold of `undoneStep` over the expected
operand versions. -/
def computeUndone (expected actual : List OperandVersion) : List (String × List String) :=
  expected.foldl (undoneStep actual) []

/-- The net effect of `undoneStep` for one expected operand, as a single
optional entry (used to characterize the fold). -/
def undoneEntry (actual : List OperandVersion) (e : OperandVersion) :
    Option (String × List String) :=
  match findVersion actual e.name with
  | none => some (e.name, [e.version])
  | some v => if v == e.version then none else some (e.name, [e.version, v])

/-- Byte-order comparison of strings used by `sort.Strings`, stated on the
character lists so that it evaluates by kernel reduction. -/
def stringLtB (x y : String) : Bool :=
  decide (x.data < y.data)

/-- Insertion step of the sort modelling `sort.Strings`. -/
def insertSorted (x : String) : List String → List String
  | [] => [x]
  | y :: t => if stringLtB y x then y :: insertSorted x t else x :: y :: t

/-- Ascending sort of the `undone` keys, modelling `sort.Strings(keys)`. -/
def sortStrings : List String → List String
  | [] => []
  | x :: t => insertSorted x (sortStrings t)

/-- The per-operand report list: iterate the sorted undone keys, skip the
pseudo-operand `operator`, and render missing-version or upgrading
messages from the stored version tuple. -/
def reportsOf (undone : List (String × List String)) : List String :=
  (sortStrings (mapKeys undone)).filterMap (fun op =>
    if op == ("operator") then none
    else
      match mapGet undone op with
      | some [expVer] =>
          let _ := expVer
          some (("missing version information for ") ++ op)
      | some (expVer :: actVer :: _) =>
          some (("upgrading ") ++ op ++ (" from ") ++ actVer ++ (" to ") ++ expVer)
      | _ => none)

/-- The mutable booleans and condition pointers accumulated by the loop
over `actual.Status.Conditions`. -/
structure CondFlags where
  available : Bool
  progressing : Bool
  failing : Bool
  failingCondition : Option COCondition
  degradedValue : Bool
  degradedCondition : Option COCondition
deriving DecidableEq

/-- One iteration of the condition loop's switch. -/
def condStep (f : CondFlags) (c : COCondition) : CondFlags :=
  if c.ctype == ("Available") && c.status == ("True") then { f with available := true }
  else if c.ctype == ("Progressing") && c.status == ("False") then { f with progressing := false }
  else if c.ctype == ("Failing") then
    { f with failing := if c.status == ("False") then false else f.failing,
             failingCondition := some c }
  else if c.ctype == ("Degraded") then
    { f with degradedValue := if c.status == ("False") then false else f.degradedValue,
             degradedCondition := some c }
  else f

/-- Initial values of the condition loop's accumulators. -/
def initFlags : CondFlags :=
  ⟨false, true, true, none, true, none⟩

/-- The condition loop over `actual.Status.Conditions`. -/
def scanConditions (conds : List COCondition) : CondFlags :=
  conds.foldl condStep initFlags

/-- The unified degraded signal: the explicit Degraded condition's value
when one was seen, else the legacy Failing value. -/
def degradedOf (conds : List COCondition) : Bool :=
  let f := scanConditions conds
  match f.degradedCondition with
  | some _ => f.degradedValue
  | none => f.failing

/-- The completion predicate of one tick once the undone set is empty:
the `switch mode` at the end of the poll function. -/
def doneBool (expected : ClusterOperator) (mode : Mode) (conds : List COCondition) : Bool :=
  let flags := scanConditions conds
  match mode with
  | .initializingMode =>
      flags.available && (!flags.progressing || decide (0 < expected.status.versions.length))
  | .defaultMode =>
      flags.available && (!flags.progressing || decide (0 < expected.status.versions.length))
        && !degradedOf conds

/-- `lowerFirst`: lower-case the first character. -/
def lowerFirst (s : String) : String :=
  match s.data with
  | [] => ("")
  | c :: rest => String.mk (Char.toLower c :: rest)

/-- Go `%v` rendering of a bool. -/
def goBool (b : Bool) : String :=
  if b then ("true") else ("false")

/-- Result of one `client.Get(expected.Name)` call inside the poll loop. -/
inductive FetchResult
  | ok (actual : ClusterOperator)
  | failed (e : String)
deriving DecidableEq

/-- One iteration of the poll function of `waitForOperatorStatusToBeDone`:
returns whether the component is judged done this tick and the diagnostic
recorded into `lastErr` when it is not. -/
def pollTick (expected : ClusterOperator) (mode : Mode) (fetch : FetchResult) :
    Bool × Option UpdateError :=
  match fetch with
  | .failed e =>
      (false, some { nested := some e, reason := ("ClusterOperatorNotAvailable"),
                     message := ("Cluster operator ") ++ expected.name ++ (" has not yet reported success"),
                     name := expected.name })
  | .ok actual =>
    let undone := computeUndone expected.status.versions actual.status.versions
    if 0 < undone.length then
      let reports := reportsOf undone
      let message :=
        if 0 < reports.length then
          ("Cluster operator ") ++ actual.name ++ (" is still updating: ") ++
            String.intercalate (", ") reports
        else ("Cluster operator ") ++ actual.name ++ (" is still updating")
      (false, some { nested := some (lowerFirst message), reason := ("ClusterOperatorNotAvailable"),
                     message := message, name := actual.name })
    else
      let flags := scanConditions actual.status.conditions
      let degraded := degradedOf actual.status.conditions
      let done := doneBool expected mode actual.status.conditions
      if done then (true, none)
      else
        let condition :=
          match flags.degradedCondition with
          | some c => some c
          | none => flags.failingCondition
        match condition with
        | some c =>
          if c.status == ("True") then
            let message :=
              if 0 < c.message.length then
                ("Cluster operator ") ++ actual.name ++ (" is reporting a failure: ") ++ c.message
              else ("Cluster operator ") ++ actual.name ++ (" is reporting a failure")
            (false, some { nested := some (lowerFirst message), reason := ("ClusterOperatorDegraded"),
                           message := message, name := actual.name })
          else
            (false, some { nested := some (("cluster operator ") ++ actual.name ++ (" is not done; it is available=")
                             ++ goBool flags.available ++ (", progressing=") ++ goBool flags.progressing
                             ++ (", degraded=") ++ goBool degraded),
                           reason := ("ClusterOperatorNotAvailable"),
                           message := ("Cluster operator ") ++ actual.name ++ (" has not yet reported success"),
                           name := actual.name })
        | none =>
            (false, some { nested := some (("cluster operator ") ++ actual.name ++ (" is not done; it is available=")
                             ++ goBool flags.available ++ (", progressing=") ++ goBool flags.progressing
                             ++ (", degraded=") ++ goBool degraded),
                           reason := ("ClusterOperatorNotAvailable"),
                           message := ("Cluster operator ") ++ actual.name ++ (" has not yet reported success"),
                           name := actual.name })

/-- `wait.PollImmediateUntil` over a finite schedule of fetch results: run
ticks until one reports done; carry the recorded `lastErr`.  The schedule
ending without a done tick models the context being cancelled then. -/
def runPolls (expected : ClusterOperator) (mode : Mode) :
    List FetchResult → Option UpdateError → Option UpdateError × Bool
  | [], lastErr => (lastErr, false)
  | f :: rest, lastErr =>
    match pollTick expected mode f with
    | (true, _) => (lastErr, true)
    | (false, e) => runPolls expected mode rest e

/-- Outcome of `waitForOperatorStatusToBeDone`: success, the last recorded
diagnostic, or the raw wait-timeout error when no diagnostic exists. -/
inductive WaitOutcome
  | success
  | diag (e : UpdateError)
  | rawCancellation
deriving DecidableEq

/-- The error-selection epilogue of `waitForOperatorStatusToBeDone`: on
completion return success; on cancellation return `lastErr` when set, else
the raw `ErrWaitTimeout`. -/
def waitResult (expected : ClusterOperator) (mode : Mode) (fetches : List FetchResult) :
    WaitOutcome :=
  match runPolls expected mode fetches none with
  | (_, true) => .success
  | (some e, false) => .diag e
  | (none, false) => .rawCancellation

/-- Last element of a list, if any (used to express the most recently
recorded diagnostic). -/
def lastSome {α : Type} : List α → Option α
  | [] => none
  | a :: l =>
    match lastSome l with
    | some x => some x
    | none => some a

/-- The most recently recorded diagnostic over a schedule of poll ticks. -/
def lastDiagnostic (expected : ClusterOperator) (mode : Mode)
    (fetches : List FetchResult) : Option UpdateError :=
  lastSome (fetches.filterMap (fun f => (pollTick expected mode f).2))

/-! ## Spec-side characterizations (for refinement claims) -/

/-- Spec characterization: an expected operand is undone iff its name is
absent from the actual operand versions or present with a differing
version. -/
def operandUndoneSpec (actual : List OperandVersion) (e : OperandVersion) : Bool :=
  match findVersion actual e.name with
  | none => true
  | some v => v != e.version

/-- Spec characterization: available iff some condition of type Available
reports True. -/
def availableSpec (conds : List COCondition) : Bool :=
  conds.any (fun c => c.ctype == ("Available") && c.status == ("True"))

/-- Spec characterization: progressing defaults to true unless a
Progressing condition explicitly reports False. -/
def progressingSpec (conds : List COCondition) : Bool :=
  !conds.any (fun c => c.ctype == ("Progressing") && c.status == ("False"))

/-- Spec characterization of the unified degraded signal: when a Degraded
condition is present its boolean is authoritative (true unless it
explicitly reports False); otherwise the legacy Failing boolean is used
(again true unless explicitly False). -/
def degradedSpec (conds : List COCondition) : Bool :=
  if conds.any (fun c => c.ctype == ("Degraded")) then
    !conds.any (fun c => c.ctype == ("Degraded") && c.status == ("False"))
  else
    !conds.any (fun c => c.ctype == ("Failing") && c.status == ("False"))

/-! ## Association-map lemmas -/

theorem mapGet_insert_self {β : Type} (m : List (String × β)) (k : String) (v : β) :
    mapGet (mapInsert m k v) k = some v := by
  simp [mapInsert, mapGet]

theorem mapGet_filter_of_key {β : Type} (q : String → Bool) (m : List (String × β)) (k : String)
    (h : q k = true) :
    mapGet (m.filter (fun kv => q kv.1)) k = mapGet m k := by
  induction m with
  | nil => rfl
  | cons kv t ih =>
    rw [List.filter_cons]
    by_cases hk : kv.1 = k
    · have hq : q kv.1 = true := by rw [hk]; exact h
      rw [if_pos hq]
      simp [mapGet, hk]
    · cases hq : q kv.1 <;> simp [mapGet, hk, ih]

theorem mapGet_insert_ne {β : Type} (m : List (String × β)) (k k' : String) (v : β)
    (h : k' ≠ k) :
    mapGet (mapInsert m k' v) k = mapGet m k := by
  have hq : (!(k == k')) = true := by simp [Ne.symm h]
  have h2 : ((k' : String) == k) = false := by simp [h]
  rw [mapInsert]
  have hhead : mapGet ((k', v) :: List.filter (fun kv => !(kv.1 == k')) m) k
      = mapGet (List.filter (fun kv => !(kv.1 == k')) m) k := by
    simp [mapGet, h2]
  rw [hhead]
  exact mapGet_filter_of_key (fun x => !(x == k')) m k hq

theorem mapGet_erase_ne {β : Type} (m : List (String × β)) (k k' : String)
    (h : k' ≠ k) :
    mapGet (mapErase m k') k = mapGet m k := by
  have hq : (!(k == k')) = true := by simp [Ne.symm h]
  exact mapGet_filter_of_key (fun x => !(x == k')) m k hq

theorem mem_keys_filter {β : Type} (q : String → Bool) (m : List (String × β)) (k : String) :
    k ∈ mapKeys (m.filter (fun kv => q kv.1)) ↔ k ∈ mapKeys m ∧ q k = true := by
  simp only [mapKeys, List.mem_map, List.mem_filter]
  constructor
  · rintro ⟨a, ⟨ha, hq⟩, rfl⟩
    exact ⟨⟨a, ha, rfl⟩, hq⟩
  · rintro ⟨⟨a, ha, rfl⟩, hq⟩
    exact ⟨a, ⟨ha, hq⟩, rfl⟩

theorem mem_keys_insert {β : Type} (m : List (String × β)) (k k' : String) (v : β) :
    k ∈ mapKeys (mapInsert m k' v) ↔ k = k' ∨ k ∈ mapKeys m := by
  have hf := mem_keys_filter (fun x => !(x == k')) m k
  by_cases hk : k = k'
  · simp [mapInsert, mapKeys, hk]
  · have hcons : mapKeys (mapInsert m k' v)
        = k' :: mapKeys (m.filter (fun kv => !(kv.1 == k'))) := rfl
    rw [hcons, List.mem_cons, hf]
    simp [hk]

theorem mem_keys_erase {β : Type} (m : List (String × β)) (k k' : String) :
    k ∈ mapKeys (mapErase m k') ↔ k ∈ mapKeys m ∧ k ≠ k' := by
  have hf := mem_keys_filter (fun x => !(x == k')) m k
  rw [mapErase]
  rw [hf]
  simp

theorem mem_keys_foldl_insert {β : Type} (l : List (String × β)) (d : List (String × β))
    (k : String) :
    k ∈ mapKeys (l.foldl (fun acc kv => mapInsert acc kv.1 kv.2) d) ↔
      k ∈ mapKeys l ∨ k ∈ mapKeys d := by
  induction l generalizing d with
  | nil => simp [mapKeys]
  | cons kv t ih =>
    rw [List.foldl_cons, ih]
    rw [mem_keys_insert]
    simp only [mapKeys, List.map_cons, List.mem_cons]
    tauto

theorem mapGet_foldl_insert_of_not_mem {β : Type} (l : List (String × β)) (d : List (String × β))
    (k : String) (h : ∀ kv ∈ l, kv.1 ≠ k) :
    mapGet (l.foldl (fun acc kv => mapInsert acc kv.1 kv.2) d) k = mapGet d k := by
  induction l generalizing d with
  | nil => rfl
  | cons kv t ih =>
    rw [List.foldl_cons]
    rw [ih _ (fun x hx => h x (List.mem_cons_of_mem kv hx))]
    exact mapGet_insert_ne d k kv.1 kv.2 (h kv (List.mem_cons_self kv t))

theorem mapGet_foldl_insert_nodup {β : Type} (l : List (String × β)) (d : List (String × β))
    (k : String) (h : (mapKeys l).Nodup) :
    mapGet (l.foldl (fun acc kv => mapInsert acc kv.1 kv.2) d) k =
      match mapGet l k with
      | some v => some v
      | none => mapGet d k := by
  induction l generalizing d with
  | nil => rfl
  | cons kv t ih =>
    simp only [mapKeys, List.map_cons, List.nodup_cons] at h
    obtain ⟨hkv, hnd⟩ := h
    rw [List.foldl_cons]
    by_cases hk : kv.1 = k
    · have hnotmem : ∀ x ∈ t, x.1 ≠ k := by
        intro x hx heq
        apply hkv
        rw [hk, ← heq]
        exact List.mem_map_of_mem Prod.fst hx
      rw [mapGet_foldl_insert_of_not_mem t _ k hnotmem]
      have h1 : mapGet (mapInsert d kv.1 kv.2) k = some kv.2 := by
        rw [hk]
        exact mapGet_insert_self d k kv.2
      have h2 : mapGet (kv :: t) k = some kv.2 := by simp [mapGet, hk]
      rw [h1, h2]
    · rw [ih _ hnd]
      have hcons : mapGet (kv :: t) k = mapGet t k := by simp [mapGet, hk]
      rw [hcons]
      cases hmt : mapGet t k with
      | some v => rfl
      | none => exact mapGet_insert_ne d k kv.1 kv.2 hk

/-! ## Claims about the update status controller -/

/-- C2: if no insight has ever been applied (internal desired state still
unpopulated) and the external ConfigMap exists, the first sync adopts the
fetched data verbatim as the initial desired state, issues no update call,
and returns success. -/
theorem claim_c2_bootstrap_without_write (cluster : CMData) (p : Nat) :
    commitStatusApiAsConfigMap ⟨none, p⟩ (GetResult.found cluster) =
      ⟨⟨some cluster, p⟩, none, SyncResult.ok⟩ := rfl

/-- C3: a not-found fetch makes sync return success with no write and no
state change; any other fetch failure is returned to the caller, likewise
with no write and no state change. -/
theorem claim_c3_fetch_error_handling (s : ControllerState) (e : String) :
    commitStatusApiAsConfigMap s GetResult.notFound = ⟨s, none, SyncResult.ok⟩
    ∧ commitStatusApiAsConfigMap s (GetResult.failed e) = ⟨s, none, SyncResult.failure e⟩ :=
  ⟨rfl, rfl⟩

/-- C4: applying insight (id, a) then (id, b) leaves the desired-state entry
for id equal to b, and each apply increments processedCount by exactly one,
hence by exactly two across the two sends. -/
theorem claim_c4_last_write_wins (s : ControllerState) (id a b : String) :
    mapGet ((updateInsightInStatusApi (updateInsightInStatusApi s ⟨id, a⟩) ⟨id, b⟩).cm.getD []) id
        = some b
    ∧ (updateInsightInStatusApi s ⟨id, a⟩).processed = s.processed + 1
    ∧ (updateInsightInStatusApi (updateInsightInStatusApi s ⟨id, a⟩) ⟨id, b⟩).processed
        = s.processed + 2 := by
  refine ⟨?_, ?_, ?_⟩
  · simp [updateInsightInStatusApi, mapGet_insert_self]
  · simp [updateInsightInStatusApi]
  · simp [updateInsightInStatusApi]

/-- C1 (amended): for a commit that issues a write (internal state and the
external ConfigMap both exist), provided every id of the desired state
bears the reserved usc- prefix, the written resource's managed-key set
equals exactly the desired state's id set, and every foreign key of the
fetched resource is carried into the written resource with its value
unchanged. -/
theorem claim_c1_merge_purity (internal cluster : CMData) (p : Nat)
    (hpref : internal.all (fun kv => isStatusInsightKey kv.1) = true) :
    (commitStatusApiAsConfigMap ⟨some internal, p⟩ (GetResult.found cluster)).write
        = some (mergeForCommit internal cluster)
    ∧ ((mapKeys (mergeForCommit internal cluster)).filter isStatusInsightKey).toFinset
        = (mapKeys internal).toFinset
    ∧ (mapKeys cluster).all
        (fun k => isStatusInsightKey k
          || (mapGet (mergeForCommit internal cluster) k == mapGet cluster k)) = true := by
  rw [List.all_eq_true] at hpref
  refine ⟨rfl, ?_, ?_⟩
  · ext k
    simp only [List.mem_toFinset, List.mem_filter]
    rw [mergeForCommit, mem_keys_foldl_insert]
    rw [mem_keys_filter (fun x => !isStatusInsightKey x) cluster k]
    constructor
    · rintro ⟨hor, hman⟩
      rcases hor with h | ⟨_, hnot⟩
      · exact h
      · rw [hman] at hnot
        simp at hnot
    · intro h
      constructor
      · exact Or.inl h
      · obtain ⟨kv, hkv, rfl⟩ := List.mem_map.mp h
        exact hpref kv hkv
  · rw [List.all_eq_true]
    intro k hk
    cases hman : isStatusInsightKey k with
    | true => simp
    | false =>
      have hforeign : mapGet (mergeForCommit internal cluster) k = mapGet cluster k := by
        rw [mergeForCommit]
        have hnotmem : ∀ kv ∈ internal, kv.1 ≠ k := by
          intro kv hkv heq
          have := hpref kv hkv
          rw [heq, hman] at this
          cases this
        rw [mapGet_foldl_insert_of_not_mem internal _ k hnotmem]
        exact mapGet_filter_of_key (fun x => !isStatusInsightKey x) cluster k (by simp [hman])
      simp [hforeign]

/-- C1 counterexample to the claim as stated: with desired state
mapping the unprefixed id foo to v and fetched data mapping the foreign key
foo to old, the commit issues a write, yet the foreign key foo of the
fetched resource is not carried over unchanged (its value becomes v), and
the written managed-key set (empty) differs from the desired id set. -/
theorem claim_c1_counterexample :
    (commitStatusApiAsConfigMap ⟨some [(("foo"), ("v"))], 1⟩
        (GetResult.found [(("foo"), ("old"))])).write = some [(("foo"), ("v"))]
    ∧ isStatusInsightKey ("foo") = false
    ∧ mapGet [(("foo"), ("old"))] ("foo") = some ("old")
    ∧ mapGet [(("foo"), ("v"))] ("foo") = some ("v")
    ∧ ((mapKeys (mergeForCommit [(("foo"), ("v"))] [(("foo"), ("old"))])).filter
          isStatusInsightKey).toFinset ≠ (mapKeys [(("foo"), ("v"))]).toFinset := by
  refine ⟨rfl, rfl, rfl, rfl, ?_⟩
  decide

/-- C1 witness: the amended theorem applied at a concrete prefixed desired
state and a mixed fetched resource. -/
theorem claim_c1_merge_purity_witness :
    (([(("usc-a"), ("1"))] : CMData).all (fun kv => isStatusInsightKey kv.1) = true)
    ∧ ((commitStatusApiAsConfigMap ⟨some [(("usc-a"), ("1"))], 1⟩
          (GetResult.found [(("foo"), ("bar")), (("usc-old"), ("x"))])).write
        = some (mergeForCommit [(("usc-a"), ("1"))] [(("foo"), ("bar")), (("usc-old"), ("x"))])
      ∧ ((mapKeys (mergeForCommit [(("usc-a"), ("1"))] [(("foo"), ("bar")), (("usc-old"), ("x"))])).filter
            isStatusInsightKey).toFinset = (mapKeys [(("usc-a"), ("1"))] : List String).toFinset
      ∧ (mapKeys [(("foo"), ("bar")), (("usc-old"), ("x"))]).all
          (fun k => isStatusInsightKey k
            || (mapGet (mergeForCommit [(("usc-a"), ("1"))] [(("foo"), ("bar")), (("usc-old"), ("x"))]) k
                  == mapGet [(("foo"), ("bar")), (("usc-old"), ("x"))] k)) = true) :=
  ⟨by decide, claim_c1_merge_purity [(("usc-a"), ("1"))] [(("foo"), ("bar")), (("usc-old"), ("x"))] 1 (by decide)⟩

/-- C9: the insight id is used verbatim as the ConfigMap data key (no usc-
prefix is added on write), and the commit's pruning pass deletes only
prefixed keys; hence an insight whose id lacks the prefix is written into
the external resource as a key the pruning step never deletes. -/
theorem claim_c9_unprefixed_insight_key (s : ControllerState) (id content : String)
    (cluster : CMData) (hid : isStatusInsightKey id = false)
    (hnd : (mapKeys ((updateInsightInStatusApi s ⟨id, content⟩).cm.getD [])).Nodup) :
    mapGet ((updateInsightInStatusApi s ⟨id, content⟩).cm.getD []) id = some content
    ∧ mapGet (cluster.filter (fun kv => !isStatusInsightKey kv.1)) id = mapGet cluster id
    ∧ mapGet (mergeForCommit ((updateInsightInStatusApi s ⟨id, content⟩).cm.getD []) cluster) id
        = some content := by
  have h1 : mapGet ((updateInsightInStatusApi s ⟨id, content⟩).cm.getD []) id = some content := by
    simp [updateInsightInStatusApi, mapGet_insert_self]
  refine ⟨h1, ?_, ?_⟩
  · exact mapGet_filter_of_key (fun x => !isStatusInsightKey x) cluster id (by simp [hid])
  · rw [mergeForCommit]
    rw [mapGet_foldl_insert_nodup _ _ id hnd]
    rw [h1]

/-- C9 witness: the theorem applied at a concrete unprefixed insight with a
concrete fetched resource. -/
theorem claim_c9_unprefixed_insight_key_witness :
    (isStatusInsightKey ("foo") = false)
    ∧ ((mapKeys ((updateInsightInStatusApi ⟨none, 0⟩ ⟨("foo"), ("v")⟩).cm.getD [])).Nodup)
    ∧ (mapGet ((updateInsightInStatusApi ⟨none, 0⟩ ⟨("foo"), ("v")⟩).cm.getD []) ("foo") = some ("v")
      ∧ mapGet (([(("foo"), ("old")), (("usc-b"), ("2"))] : CMData).filter
            (fun kv => !isStatusInsightKey kv.1)) ("foo")
          = mapGet [(("foo"), ("old")), (("usc-b"), ("2"))] ("foo")
      ∧ mapGet (mergeForCommit ((updateInsightInStatusApi ⟨none, 0⟩ ⟨("foo"), ("v")⟩).cm.getD [])
            [(("foo"), ("old")), (("usc-b"), ("2"))]) ("foo") = some ("v")) :=
  ⟨by decide, by decide,
    claim_c9_unprefixed_insight_key ⟨none, 0⟩ ("foo") ("v")
      [(("foo"), ("old")), (("usc-b"), ("2"))] (by decide) (by decide)⟩

/-! ## Waiter lemmas: condition scan characterization -/

theorem scanFold_available (conds : List COCondition) (f0 : CondFlags) :
    (conds.foldl condStep f0).available
      = (f0.available || conds.any (fun c => c.ctype == ("Available") && c.status == ("True"))) := by
  induction conds generalizing f0 with
  | nil => simp
  | cons c t ih =>
    simp only [List.foldl_cons, List.any_cons]
    rw [ih (condStep f0 c)]
    have hstep : (condStep f0 c).available
        = (f0.available || (c.ctype == ("Available") && c.status == ("True"))) := by
      rw [condStep]
      split_ifs with h1 h2 h3 h4 <;> simp_all
    rw [hstep, Bool.or_assoc]

theorem scanFold_progressing (conds : List COCondition) (f0 : CondFlags) :
    (conds.foldl condStep f0).progressing
      = (f0.progressing && !conds.any (fun c => c.ctype == ("Progressing") && c.status == ("False"))) := by
  induction conds generalizing f0 with
  | nil => simp
  | cons c t ih =>
    simp only [List.foldl_cons, List.any_cons]
    rw [ih (condStep f0 c)]
    have hstep : (condStep f0 c).progressing
        = (f0.progressing && !(c.ctype == ("Progressing") && c.status == ("False"))) := by
      rw [condStep]
      split_ifs <;> (try simp_all) <;> tauto
    rw [hstep]
    cases c.ctype == ("Progressing") && c.status == ("False") <;> simp

theorem scanFold_failing (conds : List COCondition) (f0 : CondFlags) :
    (conds.foldl condStep f0).failing
      = (f0.failing && !conds.any (fun c => c.ctype == ("Failing") && c.status == ("False"))) := by
  induction conds generalizing f0 with
  | nil => simp
  | cons c t ih =>
    simp only [List.foldl_cons, List.any_cons]
    rw [ih (condStep f0 c)]
    have hstep : (condStep f0 c).failing
        = (f0.failing && !(c.ctype == ("Failing") && c.status == ("False"))) := by
      rw [condStep]
      split_ifs <;> simp_all
    rw [hstep]
    cases c.ctype == ("Failing") && c.status == ("False") <;> simp

theorem scanFold_degradedValue (conds : List COCondition) (f0 : CondFlags) :
    (conds.foldl condStep f0).degradedValue
      = (f0.degradedValue && !conds.any (fun c => c.ctype == ("Degraded") && c.status == ("False"))) := by
  induction conds generalizing f0 with
  | nil => simp
  | cons c t ih =>
    simp only [List.foldl_cons, List.any_cons]
    rw [ih (condStep f0 c)]
    have hstep : (condStep f0 c).degradedValue
        = (f0.degradedValue && !(c.ctype == ("Degraded") && c.status == ("False"))) := by
      rw [condStep]
      split_ifs <;> simp_all
    rw [hstep]
    cases c.ctype == ("Degraded") && c.status == ("False") <;> simp

theorem scanFold_degradedCondition (conds : List COCondition) (f0 : CondFlags) :
    (conds.foldl condStep f0).degradedCondition.isSome
      = (f0.degradedCondition.isSome || conds.any (fun c => c.ctype == ("Degraded"))) := by
  induction conds generalizing f0 with
  | nil => simp
  | cons c t ih =>
    simp only [List.foldl_cons, List.any_cons]
    rw [ih (condStep f0 c)]
    have hstep : (condStep f0 c).degradedCondition.isSome
        = (f0.degradedCondition.isSome || (c.ctype == ("Degraded"))) := by
      rw [condStep]
      split_ifs with h1 h2 h3 h4 <;> simp_all
    rw [hstep, Bool.or_assoc]

theorem scanConditions_available (conds : List COCondition) :
    (scanConditions conds).available = availableSpec conds := by
  rw [scanConditions, availableSpec, scanFold_available]
  rfl

theorem scanConditions_progressing (conds : List COCondition) :
    (scanConditions conds).progressing = progressingSpec conds := by
  rw [scanConditions, progressingSpec, scanFold_progressing]
  rfl

theorem degradedOf_eq_spec (conds : List COCondition) :
    degradedOf conds = degradedSpec conds := by
  have hdc := scanFold_degradedCondition conds initFlags
  have hdv := scanFold_degradedValue conds initFlags
  have hf := scanFold_failing conds initFlags
  rw [show initFlags.degradedCondition.isSome = false from rfl, Bool.false_or] at hdc
  rw [show initFlags.degradedValue = true from rfl, Bool.true_and] at hdv
  rw [show initFlags.failing = true from rfl, Bool.true_and] at hf
  rw [degradedOf, degradedSpec]
  cases hsome : (scanConditions conds).degradedCondition with
  | some c =>
    have hany : conds.any (fun c => c.ctype == ("Degraded")) = true := by
      rw [← hdc]
      show (scanConditions conds).degradedCondition.isSome = true
      rw [hsome]
      rfl
    rw [hany, if_pos rfl]
    exact hdv
  | none =>
    have hany : conds.any (fun c => c.ctype == ("Degraded")) = false := by
      rw [← hdc]
      show (scanConditions conds).degradedCondition.isSome = false
      rw [hsome]
      rfl
    rw [hany]
    simp only [Bool.false_eq_true, if_false]
    exact hf

theorem decide_len_pos {α : Type} (l : List α) : decide (0 < l.length) = !l.isEmpty := by
  cases l <;> simp

theorem pollTick_fst_of_no_undone (expected actual : ClusterOperator) (mode : Mode)
    (hundone : computeUndone expected.status.versions actual.status.versions = []) :
    (pollTick expected mode (FetchResult.ok actual)).1
      = doneBool expected mode actual.status.conditions := by
  simp only [pollTick, hundone]
  simp only [List.length_nil, Nat.lt_irrefl, if_false]
  cases hdone : doneBool expected mode actual.status.conditions with
  | true => simp [hdone]
  | false =>
    simp only [hdone, Bool.false_eq_true, if_false]
    cases hC : (match (scanConditions actual.status.conditions).degradedCondition with
      | some c => some c
      | none => (scanConditions actual.status.conditions).failingCondition) with
    | some c => cases hs : (c.status == ("True")) <;> simp [hC, hs]
    | none => simp [hC]

theorem pollTick_shape (expected : ClusterOperator) (mode : Mode) (fetch : FetchResult) :
    pollTick expected mode fetch = (true, none)
    ∨ ∃ err, pollTick expected mode fetch = (false, some err) := by
  cases fetch with
  | failed e => exact Or.inr ⟨_, rfl⟩
  | ok actual =>
    simp only [pollTick]
    split
    · exact Or.inr ⟨_, rfl⟩
    · split
      · exact Or.inl rfl
      · split
        · split
          · exact Or.inr ⟨_, rfl⟩
          · exact Or.inr ⟨_, rfl⟩
        · exact Or.inr ⟨_, rfl⟩

/-! ## Claims about the readiness waiter -/

/-- C6: the per-tick degraded signal equals the Degraded condition's
boolean whenever one is present and otherwise the legacy Failing
condition's boolean, each defaulting to true unless explicitly False; in
particular Failing=True with Degraded=False, Available=True,
Progressing=False in Default mode completes the wait. -/
theorem claim_c6_condition_precedence (conds : List COCondition) :
    degradedOf conds = degradedSpec conds
    ∧ pollTick ⟨("test-co"), ⟨[], []⟩⟩ Mode.defaultMode
        (FetchResult.ok ⟨("test-co"), ⟨[], [⟨("Failing"), ("True"), ("")⟩, ⟨("Degraded"), ("False"), ("")⟩,
          ⟨("Available"), ("True"), ("")⟩, ⟨("Progressing"), ("False"), ("")⟩]⟩⟩) = (true, none) :=
  ⟨degradedOf_eq_spec conds, by decide⟩

/-- C7: on a tick with an empty undone set, Initializing mode completes iff
available and (not progressing or the expected operand-version list is
non-empty), tolerating degraded; Default mode additionally requires not
degraded. -/
theorem claim_c7_completion_predicate (expected actual : ClusterOperator) (mode : Mode)
    (hundone : computeUndone expected.status.versions actual.status.versions = []) :
    (pollTick expected mode (FetchResult.ok actual)).1 =
      (match mode with
       | Mode.initializingMode =>
           availableSpec actual.status.conditions
             && (!progressingSpec actual.status.conditions
                  || !expected.status.versions.isEmpty)
       | Mode.defaultMode =>
           availableSpec actual.status.conditions
             && (!progressingSpec actual.status.conditions
                  || !expected.status.versions.isEmpty)
             && !degradedSpec actual.status.conditions) := by
  rw [pollTick_fst_of_no_undone expected actual mode hundone]
  rw [doneBool.eq_def]
  cases mode
  · simp only
    rw [scanConditions_available, scanConditions_progressing, decide_len_pos]
  · simp only
    rw [scanConditions_available, scanConditions_progressing, decide_len_pos, degradedOf_eq_spec]

/-- C7 witness: the theorem applied in Default mode at a concrete status
with one Available condition (not done: degraded defaults to true through
the absent Failing and Degraded conditions). -/
theorem claim_c7_completion_predicate_witness :
    (computeUndone (⟨("test-co"), ⟨[], []⟩⟩ : ClusterOperator).status.versions
        (⟨("test-co"), ⟨[], [⟨("Available"), ("True"), ("")⟩]⟩⟩ : ClusterOperator).status.versions = [])
    ∧ ((pollTick ⟨("test-co"), ⟨[], []⟩⟩ Mode.defaultMode
          (FetchResult.ok ⟨("test-co"), ⟨[], [⟨("Available"), ("True"), ("")⟩]⟩⟩)).1 =
        (match Mode.defaultMode with
         | Mode.initializingMode =>
             availableSpec [⟨("Available"), ("True"), ("")⟩]
               && (!progressingSpec [⟨("Available"), ("True"), ("")⟩]
                    || !([] : List OperandVersion).isEmpty)
         | Mode.defaultMode =>
             availableSpec [⟨("Available"), ("True"), ("")⟩]
               && (!progressingSpec [⟨("Available"), ("True"), ("")⟩]
                    || !([] : List OperandVersion).isEmpty)
               && !degradedSpec [⟨("Available"), ("True"), ("")⟩])) :=
  ⟨by decide,
    claim_c7_completion_predicate ⟨("test-co"), ⟨[], []⟩⟩
      ⟨("test-co"), ⟨[], [⟨("Available"), ("True"), ("")⟩]⟩⟩ Mode.defaultMode (by decide)⟩

/-! ## Undone-map lemmas -/

theorem mapInsert_mapInsert {β : Type} (m : List (String × β)) (k : String) (a b : β) :
    mapInsert (mapInsert m k a) k b = mapInsert m k b := by
  rw [mapInsert, mapInsert, mapInsert]
  congr 1
  rw [List.filter_cons]
  simp [List.filter_filter]

theorem mapErase_mapInsert {β : Type} (m : List (String × β)) (k : String) (a : β) :
    mapErase (mapInsert m k a) k = mapErase m k := by
  rw [mapErase, mapInsert, mapErase]
  rw [List.filter_cons]
  simp [List.filter_filter]

theorem undoneStep_char (actual : List OperandVersion) (m : List (String × List String))
    (e : OperandVersion) :
    undoneStep actual m e =
      match undoneEntry actual e with
      | some kv => mapInsert m kv.1 kv.2
      | none => mapErase m e.name := by
  rw [undoneStep, undoneEntry]
  cases hf : findVersion actual e.name with
  | none => rfl
  | some v =>
    cases hv : (v == e.version) with
    | false => simp [hv, mapInsert_mapInsert]
    | true => simp [hv, mapErase_mapInsert]

theorem undoneEntry_key (actual : List OperandVersion) (e : OperandVersion)
    (kv : String × List String) (h : undoneEntry actual e = some kv) : kv.1 = e.name := by
  rw [undoneEntry] at h
  cases hf : findVersion actual e.name with
  | none =>
    rw [hf] at h
    injection h with h1
    rw [← h1]
  | some v =>
    rw [hf] at h
    cases hv : (v == e.version) with
    | false =>
      simp only [hv, Bool.false_eq_true, if_false, Option.some.injEq] at h
      rw [← h]
    | true =>
      simp [hv] at h

theorem mem_keys_undoneStep_of_ne (actual : List OperandVersion)
    (m : List (String × List String)) (e : OperandVersion) (k : String) (h : e.name ≠ k) :
    (k ∈ mapKeys (undoneStep actual m e) ↔ k ∈ mapKeys m) := by
  rw [undoneStep_char]
  cases hE : undoneEntry actual e with
  | none =>
    rw [mem_keys_erase]
    simp [Ne.symm h]
  | some kv =>
    have hk := undoneEntry_key actual e kv hE
    rw [mem_keys_insert]
    rw [hk]
    simp [Ne.symm h]

theorem mem_keys_undoneStep_self (actual : List OperandVersion)
    (m : List (String × List String)) (e : OperandVersion) :
    (e.name ∈ mapKeys (undoneStep actual m e) ↔ (undoneEntry actual e).isSome = true) := by
  rw [undoneStep_char]
  cases hE : undoneEntry actual e with
  | none => simp [mem_keys_erase]
  | some kv =>
    have hk := undoneEntry_key actual e kv hE
    rw [mem_keys_insert, hk]
    simp

theorem mem_keys_foldl_undone_of_not_mem (actual : List OperandVersion)
    (l : List OperandVersion) (m : List (String × List String)) (k : String)
    (h : ∀ x ∈ l, x.name ≠ k) :
    (k ∈ mapKeys (l.foldl (undoneStep actual) m) ↔ k ∈ mapKeys m) := by
  induction l generalizing m with
  | nil => exact Iff.rfl
  | cons x t ih =>
    rw [List.foldl_cons]
    rw [ih _ (fun y hy => h y (List.mem_cons_of_mem x hy))]
    exact mem_keys_undoneStep_of_ne actual m x k (h x (List.mem_cons_self x t))

theorem undoneEntry_isSome_eq_spec (actual : List OperandVersion) (e : OperandVersion) :
    (undoneEntry actual e).isSome = operandUndoneSpec actual e := by
  rw [undoneEntry, operandUndoneSpec]
  cases hf : findVersion actual e.name with
  | none => rfl
  | some v => cases hv : (v == e.version) <;> simp [hv, bne]

theorem computeUndone_mem_iff (expected actual : List OperandVersion) (e : OperandVersion)
    (hnd : (expected.map OperandVersion.name).Nodup) (he : e ∈ expected) :
    (e.name ∈ mapKeys (computeUndone expected actual) ↔ operandUndoneSpec actual e = true) := by
  obtain ⟨l1, l2, rfl⟩ := List.append_of_mem he
  rw [computeUndone, List.foldl_append, List.foldl_cons]
  have hmap : (l1 ++ e :: l2).map OperandVersion.name
      = l1.map OperandVersion.name ++ e.name :: l2.map OperandVersion.name := by simp
  rw [hmap] at hnd
  have h2 : e.name ∉ l2.map OperandVersion.name :=
    (List.nodup_cons.mp (List.Nodup.of_append_right hnd)).1
  have hne : ∀ x ∈ l2, x.name ≠ e.name := by
    intro x hx heq
    exact h2 (heq ▸ List.mem_map_of_mem OperandVersion.name hx)
  rw [mem_keys_foldl_undone_of_not_mem actual l2 _ e.name hne]
  rw [mem_keys_undoneStep_self]
  rw [undoneEntry_isSome_eq_spec]

/-- C5: with distinct expected operand names, an expected operand is undone
iff its name is absent from the actual versions or present with a
differing version; on the claim's concrete input the tick is not done and
the diagnostic joins exactly the kube-apiserver upgrading report, while an
undone operator pseudo-operand still blocks completion but is omitted from
the report text. -/
theorem claim_c5_operand_version_gap (expected actual : List OperandVersion)
    (e : OperandVersion) (hnd : (expected.map OperandVersion.name).Nodup)
    (he : e ∈ expected) :
    (e.name ∈ mapKeys (computeUndone expected actual) ↔ operandUndoneSpec actual e = true)
    ∧ pollTick ⟨("test-co"), ⟨[⟨("operator"), ("4.10.0")⟩, ⟨("kube-apiserver"), ("4.10.0")⟩], []⟩⟩
        Mode.defaultMode
        (FetchResult.ok ⟨("test-co"), ⟨[⟨("operator"), ("4.10.0")⟩, ⟨("kube-apiserver"), ("4.9.5")⟩], []⟩⟩)
      = (false, some ⟨some ("cluster operator test-co is still updating: upgrading kube-apiserver from 4.9.5 to 4.10.0"),
                      ("ClusterOperatorNotAvailable"),
                      ("Cluster operator test-co is still updating: upgrading kube-apiserver from 4.9.5 to 4.10.0"),
                      ("test-co")⟩)
    ∧ reportsOf (computeUndone [⟨("operator"), ("4.10.0")⟩, ⟨("kube-apiserver"), ("4.10.0")⟩]
          [⟨("operator"), ("4.10.0")⟩, ⟨("kube-apiserver"), ("4.9.5")⟩])
        = [("upgrading kube-apiserver from 4.9.5 to 4.10.0")]
    ∧ pollTick ⟨("test-co"), ⟨[⟨("operator"), ("4.10.0")⟩], []⟩⟩ Mode.defaultMode
        (FetchResult.ok ⟨("test-co"), ⟨[⟨("operator"), ("4.9.0")⟩], []⟩⟩)
      = (false, some ⟨some ("cluster operator test-co is still updating"),
                      ("ClusterOperatorNotAvailable"),
                      ("Cluster operator test-co is still updating"),
                      ("test-co")⟩) :=
  ⟨computeUndone_mem_iff expected actual e hnd he, by decide, by decide, by decide⟩

/-- C5 witness: the theorem applied at the claim's concrete expected and
actual operand-version lists and the kube-apiserver operand. -/
theorem claim_c5_operand_version_gap_witness :
    (([⟨("operator"), ("4.10.0")⟩, ⟨("kube-apiserver"), ("4.10.0")⟩].map OperandVersion.name).Nodup)
    ∧ ((⟨("kube-apiserver"), ("4.10.0")⟩ : OperandVersion)
        ∈ [⟨("operator"), ("4.10.0")⟩, ⟨("kube-apiserver"), ("4.10.0")⟩])
    ∧ ((⟨("kube-apiserver"), ("4.10.0")⟩ : OperandVersion).name
          ∈ mapKeys (computeUndone [⟨("operator"), ("4.10.0")⟩, ⟨("kube-apiserver"), ("4.10.0")⟩]
              [⟨("operator"), ("4.10.0")⟩, ⟨("kube-apiserver"), ("4.9.5")⟩])
        ↔ operandUndoneSpec [⟨("operator"), ("4.10.0")⟩, ⟨("kube-apiserver"), ("4.9.5")⟩]
            ⟨("kube-apiserver"), ("4.10.0")⟩ = true) :=
  ⟨by decide, by decide,
    (claim_c5_operand_version_gap
      [⟨("operator"), ("4.10.0")⟩, ⟨("kube-apiserver"), ("4.10.0")⟩]
      [⟨("operator"), ("4.10.0")⟩, ⟨("kube-apiserver"), ("4.9.5")⟩]
      ⟨("kube-apiserver"), ("4.10.0")⟩ (by decide) (by decide)).1⟩

/-! ## Cancellation-surfacing lemmas -/

theorem runPolls_of_no_done (expected : ClusterOperator) (mode : Mode)
    (fetches : List FetchResult) (acc : Option UpdateError)
    (h : fetches.all (fun f => !(pollTick expected mode f).1) = true) :
    runPolls expected mode fetches acc =
      ((match lastSome (fetches.filterMap (fun f => (pollTick expected mode f).2)) with
        | some e => some e
        | none => acc), false) := by
  induction fetches generalizing acc with
  | nil => rfl
  | cons f rest ih =>
    rw [List.all_cons] at h
    rw [Bool.and_eq_true] at h
    obtain ⟨hf, hrest⟩ := h
    rw [Bool.not_eq_eq_eq_not, Bool.not_true] at hf
    rcases pollTick_shape expected mode f with hsh | ⟨e0, hsh⟩
    · rw [hsh] at hf
      simp at hf
    · rw [runPolls, hsh]
      show runPolls expected mode rest (some e0) = _
      rw [ih _ hrest]
      rw [List.filterMap_cons]
      rw [hsh]
      show _ = (match lastSome (e0 :: rest.filterMap (fun f => (pollTick expected mode f).2)) with
        | some e => some e
        | none => acc, false)
      simp only [lastSome]
      cases lastSome (rest.filterMap (fun f => (pollTick expected mode f).2)) <;> rfl

/-- C8: if the wait is cancelled before any tick judges the component done,
the waiter returns the most recently recorded diagnostic when at least one
tick recorded one, and the raw cancellation error only when none was ever
recorded. -/
theorem claim_c8_cancellation_surfacing (expected : ClusterOperator) (mode : Mode)
    (fetches : List FetchResult)
    (h : fetches.all (fun f => !(pollTick expected mode f).1) = true) :
    waitResult expected mode fetches =
      (match lastDiagnostic expected mode fetches with
       | some e => WaitOutcome.diag e
       | none => WaitOutcome.rawCancellation) := by
  rw [waitResult, lastDiagnostic]
  rw [runPolls_of_no_done expected mode fetches none h]
  cases lastSome (fetches.filterMap (fun f => (pollTick expected mode f).2)) <;> rfl

/-- C8 witness: the theorem applied to a schedule of two failing fetches
cancelled before success; the returned outcome is the second (most recent)
diagnostic. -/
theorem claim_c8_cancellation_surfacing_witness :
    (([FetchResult.failed ("boom1"), FetchResult.failed ("boom2")].all
        (fun f => !(pollTick ⟨("test-co"), ⟨[], []⟩⟩ Mode.defaultMode f).1) = true))
    ∧ (waitResult ⟨("test-co"), ⟨[], []⟩⟩ Mode.defaultMode
          [FetchResult.failed ("boom1"), FetchResult.failed ("boom2")] =
        (match lastDiagnostic ⟨("test-co"), ⟨[], []⟩⟩ Mode.defaultMode
            [FetchResult.failed ("boom1"), FetchResult.failed ("boom2")] with
         | some e => WaitOutcome.diag e
         | none => WaitOutcome.rawCancellation)) :=
  ⟨by decide,
    claim_c8_cancellation_surfacing ⟨("test-co"), ⟨[], []⟩⟩ Mode.defaultMode
      [FetchResult.failed ("boom1"), FetchResult.failed ("boom2")] (by decide)⟩

/-! ## Claim about precondition error summarization -/

/-- C10: Summarize returns nil iff the error list is empty; a non-empty
list yields an error with reason UpgradePreconditionCheckFailed, name
PreconditionCheck and nil nested cause, whose message is the single
rendering for a singleton list (structured precondition errors rendered
with their name and reason) and otherwise a bullet list over the inputs in
order. -/
theorem claim_c10_summarize (errs : List GoError) :
    (summarize errs = none ↔ errs = [])
    ∧ (∀ e, errs = [e] →
        summarize errs = some ⟨none, ("UpgradePreconditionCheckFailed"), summarizeRender e,
          ("PreconditionCheck")⟩)
    ∧ (2 ≤ errs.length →
        summarize errs = some ⟨none, ("UpgradePreconditionCheckFailed"),
          ("Multiple precondition checks failed:\n* ")
            ++ String.intercalate ("\n* ") (errs.map summarizeRender),
          ("PreconditionCheck")⟩) := by
  refine ⟨?_, ?_, ?_⟩
  · cases errs with
    | nil => simp [summarize]
    | cons e t => simp [summarize]
  · intro e he
    rw [he]
    rfl
  · intro hlen
    cases errs with
    | nil => simp at hlen
    | cons e1 t =>
      cases t with
      | nil => simp at hlen
      | cons e2 t2 => rfl

/-- C10 witness: the three parts applied at concrete lists (empty,
singleton with a structured precondition error, and a two-element list). -/
theorem claim_c10_summarize_witness :
    (summarize [] = none)
    ∧ (summarize [GoError.structured none ("R") ("boom") ("N")]
        = some ⟨none, ("UpgradePreconditionCheckFailed"),
            summarizeRender (GoError.structured none ("R") ("boom") ("N")),
            ("PreconditionCheck")⟩)
    ∧ (summarize [GoError.plain ("a"), GoError.plain ("b")]
        = some ⟨none, ("UpgradePreconditionCheckFailed"),
            ("Multiple precondition checks failed:\n* ")
              ++ String.intercalate ("\n* ")
                  ([GoError.plain ("a"), GoError.plain ("b")].map summarizeRender),
            ("PreconditionCheck")⟩) :=
  ⟨(claim_c10_summarize []).1.mpr rfl,
    (claim_c10_summarize [GoError.structured none ("R") ("boom") ("N")]).2.1
      (GoError.structured none ("R") ("boom") ("N")) rfl,
    (claim_c10_summarize [GoError.plain ("a"), GoError.plain ("b")]).2.2 (by decide)⟩
